import Mathlib

/-!
Shallow embedding of the `evolution` simulation (aubaugh/evolution).

The repository ships a single source file, `src/main.rs`, holding the
configuration record, `State::new` (world construction), the per-frame
driver loop (`State::update`, which calls `behaviors` then `update` on each
vehicle in collection order), and the affine helper `map_range`.  Those parts
are embedded here directly from the source.  The `Vehicle` and `Food`
component modules (`evolution::vehicle`, `evolution::food`) are referenced by
`main.rs` but their code is not part of the repository snapshot; their
operations (`Vehicle::behaviors`, `Vehicle::update`, `Vehicle::new`) are
modelled from the specification, as marked on each definition.

Machine `f32` arithmetic is embedded as exact real arithmetic (`ℝ`): vector
norms use `Real.sqrt`, `atan2` is `Complex.arg`, and the spec's tolerance-ε
statements become exact inequalities.
-/

namespace Evolution

/-- Planar vector / point, embedding `nalgebra` `Point2<f32>` / `Vector2<f32>`. -/
structure Vec2 where
  x : ℝ
  y : ℝ

/-- Zero vector. -/
def Vec2.zero : Vec2 := ⟨0, 0⟩

/-- Componentwise addition. -/
def Vec2.add (a b : Vec2) : Vec2 := ⟨a.x + b.x, a.y + b.y⟩

/-- Componentwise subtraction. -/
def Vec2.sub (a b : Vec2) : Vec2 := ⟨a.x - b.x, a.y - b.y⟩

/-- Scalar multiplication. -/
def Vec2.smul (c : ℝ) (v : Vec2) : Vec2 := ⟨c * v.x, c * v.y⟩

/-- Euclidean magnitude of a vector. -/
noncomputable def Vec2.norm (v : Vec2) : ℝ := Real.sqrt (v.x ^ 2 + v.y ^ 2)

/-- Unit vector in the direction of `v`; the zero vector short-circuits to zero
(spec §4.2.3: degenerate normalization produces a zero result). -/
noncomputable def Vec2.normalize (v : Vec2) : Vec2 :=
  if v.norm = 0 then Vec2.zero else Vec2.smul (1 / v.norm) v

/-- Magnitude clamp: if `|v| > m`, rescale `v` to magnitude `m`, else leave it. -/
noncomputable def Vec2.limit (v : Vec2) (m : ℝ) : Vec2 :=
  if m < v.norm then Vec2.smul (m / v.norm) v else v

/-- Euclidean distance between two points. -/
noncomputable def dist2 (p q : Vec2) : ℝ := (Vec2.sub p q).norm

/-- Planar `atan2 y x`, embedded as the argument of the complex number `x + y·i`. -/
noncomputable def atan2 (y x : ℝ) : ℝ := Complex.arg ⟨x, y⟩

/-- Stimulus record, from `evolution::food::Food` as constructed in `State::new`:
a size, a position and an RGBA color. -/
structure Food where
  size : ℝ
  pos : Vec2
  color : ℝ × ℝ × ℝ × ℝ

/-- Vehicle record.  Modelled from the spec: the module `evolution::vehicle` is
not in the repository snapshot; fields follow spec §3 (kinematic state, steering
limits, the two-gene `dna`, and per-class perception radii). -/
structure Vehicle where
  size : ℝ
  max_speed : ℝ
  max_steering_force : ℝ
  pos : Vec2
  velocity : Vec2
  acceleration : Vec2
  heading_angle : ℝ
  dna : ℝ × ℝ
  perception_food : ℝ
  perception_poison : ℝ

/-- Linear scan for the nearest stimulus: returns the index (earliest index on
ties), the stimulus itself, and its distance to `p`.  Modelled from the spec
(§4.2.1 step 1 and the tie-break rule): `evolution::vehicle` is not in the
repository snapshot. -/
noncomputable def nearestAux (p : Vec2) : List Food → Option (Nat × Food × ℝ)
  | [] => none
  | f :: rest =>
    match nearestAux p rest with
    | none => some (0, f, dist2 p f.pos)
    | some (j, g, dj) =>
      if dist2 p f.pos ≤ dj then some (0, f, dist2 p f.pos)
      else some (j + 1, g, dj)

/-- Nearest stimulus of a collection, with earliest-index tie-break. -/
noncomputable def nearest (p : Vec2) (xs : List Food) : Option (Nat × Food × ℝ) :=
  nearestAux p xs

/-- One stimulus class of `Vehicle::behaviors`.  Modelled from the spec
(§4.2.1, `evolution::vehicle` is not in the repository snapshot): find the
nearest stimulus; on contact (distance ≤ half-sizes) consume it and contribute
nothing; else within the perception radius contribute the gene-weighted,
force-clamped steering vector; else contribute nothing.  Returns the updated
collection and the contribution added to the vehicle's acceleration. -/
noncomputable def behaviorStep (v : Vehicle) (w : ℝ) (perception : ℝ)
    (xs : List Food) : List Food × Vec2 :=
  match nearest v.pos xs with
  | none => (xs, Vec2.zero)
  | some (i, f, d) =>
    if d ≤ v.size / 2 + f.size / 2 then
      (xs.eraseIdx i, Vec2.zero)
    else if d ≤ perception then
      (xs, Vec2.smul w
        (Vec2.limit
          (Vec2.sub (Vec2.smul v.max_speed (Vec2.normalize (Vec2.sub f.pos v.pos)))
            v.velocity)
          v.max_steering_force))
    else (xs, Vec2.zero)

/-- Vehicle behaviors.  Modelled from the spec (§4.2.1, `evolution::vehicle`
is not in the repository snapshot): the food class is processed first, the
poison class second; each class's steering contribution is added to the
acceleration; both collections are returned after any consumption. -/
noncomputable def Vehicle.behaviors (v : Vehicle) (food poison : List Food) :
    Vehicle × List Food × List Food :=
  let rf := behaviorStep v v.dna.1 v.perception_food food
  let v1 : Vehicle := { v with acceleration := v.acceleration.add rf.2 }
  let rp := behaviorStep v1 v1.dna.2 v1.perception_poison poison
  ({ v1 with acceleration := v1.acceleration.add rp.2 }, rf.1, rp.1)

/-- Vehicle kinematic update, one Euler step at unit dt.  Modelled from the
spec (§4.2.2, `evolution::vehicle` is not in the repository snapshot):
velocity gains the acceleration and is clamped to `max_speed` by magnitude,
position advances by the clamped velocity, the heading tracks the velocity
direction when the velocity is nonzero, and the acceleration resets to zero. -/
noncomputable def Vehicle.update (v : Vehicle) : Vehicle :=
  let vel := Vec2.limit (v.velocity.add v.acceleration) v.max_speed
  { v with
    velocity := vel
    pos := v.pos.add vel
    heading_angle := if 0 < vel.norm then atan2 vel.y vel.x else v.heading_angle
    acceleration := Vec2.zero }

/-- One vehicle's turn inside the tick loop: `behaviors` then `update`
(from `State::update` in `src/main.rs`). -/
noncomputable def stepVehicle (v : Vehicle) (food poison : List Food) :
    Vehicle × List Food × List Food :=
  let r := v.behaviors food poison
  (Vehicle.update r.1, r.2.1, r.2.2)

/-- World state owned by the driver (`State` in `src/main.rs`, rendering
fields omitted). -/
structure State where
  vehicles : List Vehicle
  food : List Food
  poison : List Food

/-- Loop body of the driver: take the processed vehicles so far and the current
stimulus collections, run one vehicle's turn, append the updated vehicle. -/
noncomputable def tickStepFn (acc : List Vehicle × List Food × List Food)
    (v : Vehicle) : List Vehicle × List Food × List Food :=
  let r1 := stepVehicle v acc.2.1 acc.2.2
  (acc.1 ++ [r1.1], r1.2.1, r1.2.2)

/-- One tick of the driver loop (`State::update` in `src/main.rs`): fold over
the vehicles in collection order, each one running `behaviors` on the current
stimulus collections and then `update`. -/
noncomputable def State.tick (s : State) : State :=
  let r := s.vehicles.foldl tickStepFn (([] : List Vehicle), s.food, s.poison)
  ⟨r.1, r.2.1, r.2.2⟩

/-- Affine range remap, from `map_range` in `src/main.rs`. -/
noncomputable def map_range (value : ℝ) (range1 : ℝ × ℝ) (range2 : ℝ × ℝ) : ℝ :=
  range2.1 + (range2.2 - range2.1) * ((value - range1.1) / (range1.2 - range1.1))

/-- Rust half-open integer range `a..b` as the list of its elements. -/
def rustRange (a b : Nat) : List Nat := List.range' a (b - a)

/-- One draw of `rng.gen_range(lo, hi)`, embedded with an abstract entropy
value `t` supplied by a sample stream. -/
def sampleRange (lo hi t : ℝ) : ℝ := lo + (hi - lo) * t

/-- Stimulus configuration (`FoodConfig`), fields as used by `State::new`. -/
structure FoodConfig where
  quantity : Nat
  size_range : ℝ × ℝ

/-- Vehicle configuration (`VehicleConfig`), fields as used by `State::new`. -/
structure VehicleConfig where
  quantity : Nat
  size_range : ℝ × ℝ
  max_speed_range : ℝ × ℝ
  max_steering_force_range : ℝ × ℝ

/-- Application configuration (`Config` in `src/main.rs`). -/
structure Config where
  fullscreen : Bool
  window_size : ℝ × ℝ
  desired_fps : Nat
  show_fps : Bool
  vehicle : VehicleConfig
  food : FoodConfig
  poison : FoodConfig

/-- Vehicle constructor.  Modelled from the spec: `Vehicle::new` lives in the
`evolution::vehicle` module, absent from the repository snapshot; per spec §3
the vehicle starts with the given size, limits, position, angle and dna, with
zero velocity and acceleration.  `State::new` passes no perception radii (the
spec flags them as config-driven but absent from the source configuration), so
they are initialised to zero here; every theorem about perception quantifies
over arbitrary vehicles. -/
def Vehicle.new (size max_speed max_steering_force : ℝ) (pos : Vec2)
    (angle : ℝ) (dna : ℝ × ℝ) : Vehicle :=
  { size := size
    max_speed := max_speed
    max_steering_force := max_steering_force
    pos := pos
    velocity := Vec2.zero
    acceleration := Vec2.zero
    heading_angle := angle
    dna := dna
    perception_food := 0
    perception_poison := 0 }

/-- One iteration of the vehicle-spawning loop in `State::new`: sample a size,
derive `max_speed` and `max_steering_force` through `map_range`, sample an
angle, a position and the two dna genes, in source order.  The entropy stream
`r` stands for `rand::thread_rng`; iteration `k` consumes samples
`6k .. 6k+5`. -/
noncomputable def mkVehicle (cfg : Config) (r : Nat → ℝ) (k : Nat) : Vehicle :=
  let size := sampleRange cfg.vehicle.size_range.1 cfg.vehicle.size_range.2 (r (6 * k))
  let max_speed := map_range size cfg.vehicle.size_range cfg.vehicle.max_speed_range
  let msf := map_range size cfg.vehicle.size_range cfg.vehicle.max_steering_force_range
  let angle := sampleRange 0 (2 * Real.pi) (r (6 * k + 1))
  let pos : Vec2 :=
    ⟨sampleRange 0 cfg.window_size.1 (r (6 * k + 2)),
     sampleRange 0 cfg.window_size.2 (r (6 * k + 3))⟩
  let dna : ℝ × ℝ :=
    (sampleRange (-5) 5 (r (6 * k + 4)), sampleRange (-5) 5 (r (6 * k + 5)))
  Vehicle.new size max_speed msf pos angle dna

/-- One iteration of a stimulus-spawning loop in `State::new`: sample a size
and a position, attach the fixed class color; iteration base sample index `n`,
consuming samples `n .. n+2`. -/
noncomputable def mkFood (win : ℝ × ℝ) (sr : ℝ × ℝ) (color : ℝ × ℝ × ℝ × ℝ)
    (r : Nat → ℝ) (n : Nat) : Food :=
  { size := sampleRange sr.1 sr.2 (r n)
    pos := ⟨sampleRange 0 win.1 (r (n + 1)), sampleRange 0 win.2 (r (n + 2))⟩
    color := color }

/-- World construction (`State::new` in `src/main.rs`): the three spawning
loops each iterate over the Rust range `1..quantity`, so each spawns
`quantity − 1` entities.  No configuration validation is performed.  The
entropy stream is consumed sequentially: vehicles first, then food, then
poison. -/
noncomputable def State.new (cfg : Config) (r : Nat → ℝ) : State :=
  let vbase := 6 * (cfg.vehicle.quantity - 1)
  let fbase := vbase + 3 * (cfg.food.quantity - 1)
  { vehicles := (rustRange 1 cfg.vehicle.quantity).map (fun k => mkVehicle cfg r (k - 1))
    food := (rustRange 1 cfg.food.quantity).map
      (fun k => mkFood cfg.window_size cfg.food.size_range (0, 1, 0, 0.8) r
        (vbase + 3 * (k - 1)))
    poison := (rustRange 1 cfg.poison.quantity).map
      (fun k => mkFood cfg.window_size cfg.poison.size_range (1, 0, 0, 0.8) r
        (fbase + 3 * (k - 1))) }

/-- Configuration validity as the spec describes it (§3 invariants, §7):
nonempty size ranges.  This predicate follows the spec's words, for comparison
with `State.new`, which performs no such check. -/
def validConfig (cfg : Config) : Prop :=
  cfg.vehicle.size_range.1 < cfg.vehicle.size_range.2 ∧
  cfg.food.size_range.1 < cfg.food.size_range.2 ∧
  cfg.poison.size_range.1 < cfg.poison.size_range.2

/-- Test vehicle at rest at the origin with unit limits. -/
def vZero : Vehicle :=
  { size := 0, max_speed := 1, max_steering_force := 1, pos := Vec2.zero
    velocity := Vec2.zero, acceleration := Vec2.zero, heading_angle := 0
    dna := (1, 0), perception_food := 2, perception_poison := 2 }

/-- Test vehicle of size 1 sitting at the origin (used for a contact check). -/
def vAtOrigin : Vehicle :=
  { size := 1, max_speed := 1, max_steering_force := 1, pos := Vec2.zero
    velocity := Vec2.zero, acceleration := Vec2.zero, heading_angle := 0
    dna := (1, 1), perception_food := 2, perception_poison := 2 }

/-- Test vehicle with a food gene weight of 5 and a small steering-force limit. -/
def vStrong : Vehicle :=
  { size := 0, max_speed := 5, max_steering_force := 1, pos := Vec2.zero
    velocity := Vec2.zero, acceleration := Vec2.zero, heading_angle := 0
    dna := (5, 0), perception_food := 10, perception_poison := 10 }

/-- Test food stimulus at distance 1 from the origin, of size 0. -/
def fUnit : Food := { size := 0, pos := ⟨1, 0⟩, color := (0, 1, 0, 1) }

/-- Test food stimulus at the origin, of size 1 (in contact with `vAtOrigin`). -/
def fContact : Food := { size := 1, pos := Vec2.zero, color := (0, 1, 0, 1) }

/-- Test configuration requesting two of each entity, with valid ranges. -/
def cfgTwo : Config :=
  { fullscreen := false, window_size := (100, 100), desired_fps := 60
    show_fps := false
    vehicle := { quantity := 2, size_range := (1, 2), max_speed_range := (1, 2)
                 max_steering_force_range := (1, 2) }
    food := { quantity := 2, size_range := (1, 2) }
    poison := { quantity := 2, size_range := (1, 2) } }

/-- Test configuration with an empty vehicle `size_range` (invalid per the
spec's invariants). -/
def badCfg : Config :=
  { fullscreen := false, window_size := (100, 100), desired_fps := 60
    show_fps := false
    vehicle := { quantity := 2, size_range := (3, 3), max_speed_range := (1, 2)
                 max_steering_force_range := (1, 2) }
    food := { quantity := 2, size_range := (1, 2) }
    poison := { quantity := 2, size_range := (1, 2) } }

theorem Vec2.norm_nonneg (v : Vec2) : 0 ≤ v.norm := Real.sqrt_nonneg _

theorem Vec2.norm_zero : Vec2.zero.norm = 0 := by
  simp [Vec2.norm, Vec2.zero]

theorem Vec2.norm_smul (c : ℝ) (v : Vec2) : (Vec2.smul c v).norm = |c| * v.norm := by
  unfold Vec2.norm Vec2.smul
  dsimp only
  rw [mul_pow, mul_pow, ← mul_add, Real.sqrt_mul (sq_nonneg c), Real.sqrt_sq_eq_abs]

theorem Vec2.smul_zero_vec (c : ℝ) : Vec2.smul c Vec2.zero = Vec2.zero := by
  simp [Vec2.smul, Vec2.zero]

theorem Vec2.add_zero_vec (v : Vec2) : v.add Vec2.zero = v := by
  cases v
  simp [Vec2.add, Vec2.zero]

theorem Vec2.limit_norm_le (v : Vec2) (m : ℝ) (hm : 0 ≤ m) :
    (v.limit m).norm ≤ m := by
  unfold Vec2.limit
  split
  · next h =>
    have hv : 0 < v.norm := lt_of_le_of_lt hm h
    rw [Vec2.norm_smul, abs_of_nonneg (div_nonneg hm hv.le), div_mul_cancel₀ m hv.ne']
  · next h => exact le_of_not_lt h

theorem Vec2.limit_of_le (v : Vec2) (m : ℝ) (h : v.norm ≤ m) : v.limit m = v := by
  unfold Vec2.limit
  exact if_neg (not_lt.mpr h)

theorem Vec2.limit_zero_vec (m : ℝ) : Vec2.zero.limit m = Vec2.zero := by
  unfold Vec2.limit
  split
  · exact Vec2.smul_zero_vec _
  · rfl

/-- C1: for every vehicle, after `update` the magnitude of the velocity is at
most `max_speed`, regardless of the acceleration accumulated during the tick
(exact over the reals; the spec's ε-tolerance is the f32 rendering of this). -/
theorem update_speed_bounded (v : Vehicle) (h : 0 ≤ v.max_speed) :
    (Vehicle.update v).velocity.norm ≤ v.max_speed := by
  simp only [Vehicle.update]
  exact Vec2.limit_norm_le _ _ h

/-- Witness for C1 at a concrete vehicle. -/
theorem update_speed_bounded_w :
    (Vehicle.update vZero).velocity.norm ≤ vZero.max_speed :=
  update_speed_bounded vZero (by simp [vZero])

/-- C5: `update` performs exactly one Euler step at unit dt: the velocity
gains the acceleration and is clamped by magnitude to `max_speed` (and is left
unscaled when already within the bound; a zero sum stays zero), the position
advances by the clamped velocity, the heading becomes `atan2` of the new
velocity when it is nonzero and is unchanged when it is zero, the acceleration
resets to zero, and no other field changes; `update` is a total function. -/
theorem update_euler_step (v : Vehicle) :
    (Vehicle.update v).velocity = Vec2.limit (v.velocity.add v.acceleration) v.max_speed ∧
    ((v.velocity.add v.acceleration).norm ≤ v.max_speed →
      (Vehicle.update v).velocity = v.velocity.add v.acceleration) ∧
    (v.velocity.add v.acceleration = Vec2.zero →
      (Vehicle.update v).velocity = Vec2.zero) ∧
    (Vehicle.update v).pos = v.pos.add (Vehicle.update v).velocity ∧
    (0 < (Vehicle.update v).velocity.norm →
      (Vehicle.update v).heading_angle =
        atan2 (Vehicle.update v).velocity.y (Vehicle.update v).velocity.x) ∧
    ((Vehicle.update v).velocity = Vec2.zero →
      (Vehicle.update v).heading_angle = v.heading_angle) ∧
    (Vehicle.update v).acceleration = Vec2.zero ∧
    (Vehicle.update v).size = v.size ∧
    (Vehicle.update v).max_speed = v.max_speed ∧
    (Vehicle.update v).max_steering_force = v.max_steering_force ∧
    (Vehicle.update v).dna = v.dna := by
  simp only [Vehicle.update]
  refine ⟨trivial, ?_, ?_, trivial, ?_, ?_, trivial, trivial, trivial, trivial, trivial⟩
  · intro h
    exact Vec2.limit_of_le _ _ h
  · intro h
    rw [h]
    exact Vec2.limit_zero_vec _
  · intro h
    exact if_pos h
  · intro h
    refine if_neg ?_
    rw [h, Vec2.norm_zero]
    exact lt_irrefl 0


/-- Witness for C5 at a concrete vehicle whose velocity and acceleration are zero. -/
theorem update_euler_step_w :
    (Vehicle.update vZero).velocity = Vec2.zero ∧
    (Vehicle.update vZero).heading_angle = vZero.heading_angle := by
  have h := update_euler_step vZero
  have hz : vZero.velocity.add vZero.acceleration = Vec2.zero := by
    simp [vZero, Vec2.add, Vec2.zero]
  have hv := h.2.2.1 hz
  exact ⟨hv, h.2.2.2.2.2.1 hv⟩

theorem behaviorStep_eq_of_nearest (v : Vehicle) (w per : ℝ) (xs : List Food)
    (i : Nat) (f : Food) (d : ℝ) (hn : nearest v.pos xs = some (i, f, d)) :
    behaviorStep v w per xs =
      if d ≤ v.size / 2 + f.size / 2 then (xs.eraseIdx i, Vec2.zero)
      else if d ≤ per then
        (xs, Vec2.smul w (Vec2.limit
          (Vec2.sub (Vec2.smul v.max_speed (Vec2.normalize (Vec2.sub f.pos v.pos)))
            v.velocity)
          v.max_steering_force))
      else (xs, Vec2.zero) := by
  rw [behaviorStep, hn]

theorem nearestAux_cons_some (p : Vec2) (f : Food) (rest : List Food) :
    ∃ t, nearestAux p (f :: rest) = some t := by
  rw [nearestAux]
  cases nearestAux p rest with
  | none => exact ⟨_, rfl⟩
  | some t =>
    obtain ⟨j, g, dj⟩ := t
    dsimp only
    by_cases h : dist2 p f.pos ≤ dj
    · rw [if_pos h]; exact ⟨_, rfl⟩
    · rw [if_neg h]; exact ⟨_, rfl⟩

theorem nearest_spec (p : Vec2) :
    ∀ (xs : List Food) (i : Nat) (f : Food) (d : ℝ),
      nearest p xs = some (i, f, d) →
      ∃ hi : i < xs.length,
        xs.get ⟨i, hi⟩ = f ∧ d = dist2 p f.pos ∧
        (∀ j (hj : j < xs.length), d ≤ dist2 p (xs.get ⟨j, hj⟩).pos) ∧
        (∀ j (hj : j < xs.length), j < i → d < dist2 p (xs.get ⟨j, hj⟩).pos) := by
  intro xs
  induction xs with
  | nil => intro i f d h; simp [nearest, nearestAux] at h
  | cons f0 rest ih =>
    intro i f d h
    rw [nearest, nearestAux] at h
    cases hr : nearestAux p rest with
    | none =>
      rw [hr] at h
      have hrest : rest = [] := by
        cases rest with
        | nil => rfl
        | cons a as =>
          obtain ⟨t, ht⟩ := nearestAux_cons_some p a as
          rw [ht] at hr
          cases hr
      subst hrest
      obtain ⟨hi0, hff, hdd⟩ : 0 = i ∧ f0 = f ∧ dist2 p f0.pos = d := by
        simpa using h
      subst hi0; subst hff; subst hdd
      refine ⟨by simp, rfl, rfl, ?_, ?_⟩
      · intro j hj
        cases j with
        | zero => exact le_refl _
        | succ k => exact absurd hj (by simp)
      · intro j hj hlt
        exact absurd hlt (Nat.not_lt_zero j)
    | some t =>
      obtain ⟨j, g, dj⟩ := t
      obtain ⟨hjlen, hget, hdj, hmin, hearly⟩ := ih j g dj hr
      rw [hr] at h
      dsimp only at h
      by_cases hle : dist2 p f0.pos ≤ dj
      · rw [if_pos hle] at h
        obtain ⟨hi0, hff, hdd⟩ : 0 = i ∧ f0 = f ∧ dist2 p f0.pos = d := by
          simpa using h
        subst hi0; subst hff; subst hdd
        refine ⟨by simp, rfl, rfl, ?_, ?_⟩
        · intro j2 hj2
          cases j2 with
          | zero => exact le_refl _
          | succ k =>
            have hk : k < rest.length := by simpa using hj2
            exact le_trans hle (hdj ▸ hmin k hk)
        · intro j2 hj2 hlt
          exact absurd hlt (Nat.not_lt_zero j2)
      · rw [if_neg hle] at h
        obtain ⟨hi0, hff, hdd⟩ : j + 1 = i ∧ g = f ∧ dj = d := by
          simpa using h
        subst hi0; subst hff; subst hdd
        have hlt0 : dj < dist2 p f0.pos := not_le.mp hle
        refine ⟨by simpa using Nat.succ_lt_succ hjlen, ?_, ?_, ?_, ?_⟩
        · simpa using hget
        · exact hdj
        · intro j2 hj2
          cases j2 with
          | zero => exact le_of_lt hlt0
          | succ k =>
            have hk : k < rest.length := by simpa using hj2
            exact hmin k hk
        · intro j2 hj2 hlt
          cases j2 with
          | zero => exact hlt0
          | succ k =>
            have hk : k < rest.length := by simpa using hj2
            exact hearly k hk (by omega)

/-- C2: for each stimulus class, `behaviors` finds by linear scan the stimulus
at minimal distance from the vehicle (earlier index winning ties); if that
minimum distance is within contact range (half the vehicle size plus half the
stimulus size), exactly that stimulus is removed from the collection and no
steering contribution is emitted for the class; an empty collection yields no
contribution and no removal. -/
theorem behaviorStep_consumption :
    (∀ (v : Vehicle) (w per : ℝ), behaviorStep v w per [] = ([], Vec2.zero)) ∧
    (∀ (v : Vehicle) (w per : ℝ) (xs : List Food) (i : Nat) (f : Food) (d : ℝ),
      nearest v.pos xs = some (i, f, d) →
      (∃ hi : i < xs.length,
        xs.get ⟨i, hi⟩ = f ∧ d = dist2 v.pos f.pos ∧
        (∀ j (hj : j < xs.length), d ≤ dist2 v.pos (xs.get ⟨j, hj⟩).pos) ∧
        (∀ j (hj : j < xs.length), j < i → d < dist2 v.pos (xs.get ⟨j, hj⟩).pos)) ∧
      (d ≤ v.size / 2 + f.size / 2 →
        behaviorStep v w per xs = (xs.eraseIdx i, Vec2.zero) ∧
        (xs.eraseIdx i).length + 1 = xs.length)) := by
  constructor
  · intro v w per
    rfl
  · intro v w per xs i f d hn
    obtain ⟨hi, hrest⟩ := nearest_spec v.pos xs i f d hn
    refine ⟨⟨hi, hrest⟩, ?_⟩
    intro hc
    constructor
    · rw [behaviorStep_eq_of_nearest v w per xs i f d hn]
      exact if_pos hc
    · rw [List.length_eraseIdx, if_pos hi]
      omega

/-- Witness for C2: a size-1 vehicle at the origin consumes the single size-1
food stimulus lying at the origin. -/
theorem behaviorStep_consumption_w :
    behaviorStep vAtOrigin 1 2 [fContact] = ([], Vec2.zero) := by
  have hn : nearest vAtOrigin.pos [fContact] =
      some (0, fContact, dist2 vAtOrigin.pos fContact.pos) := rfl
  have hc : dist2 vAtOrigin.pos fContact.pos ≤ vAtOrigin.size / 2 + fContact.size / 2 := by
    simp [dist2, Vec2.sub, Vec2.norm, Vec2.zero, vAtOrigin, fContact]
  have h := (behaviorStep_consumption.2 vAtOrigin 1 2 [fContact] 0 fContact
    (dist2 vAtOrigin.pos fContact.pos) hn).2 hc
  simpa using h.1

/-- C3: when the nearest stimulus of a class is not in contact but lies within
the class's perception radius, the vehicle's steering contribution is the gene
weight times the clamp of (normalize(target − position) · max_speed − velocity)
to `max_steering_force`; when the nearest stimulus is beyond the perception
radius, the contribution is zero and the acceleration is unchanged. -/
theorem behaviorStep_perception (v : Vehicle) (w per : ℝ) (xs : List Food)
    (i : Nat) (f : Food) (d : ℝ)
    (hn : nearest v.pos xs = some (i, f, d))
    (hc : ¬ d ≤ v.size / 2 + f.size / 2) :
    (d ≤ per →
      behaviorStep v w per xs =
        (xs, Vec2.smul w (Vec2.limit
          (Vec2.sub (Vec2.smul v.max_speed (Vec2.normalize (Vec2.sub f.pos v.pos)))
            v.velocity)
          v.max_steering_force))) ∧
    (¬ d ≤ per →
      behaviorStep v w per xs = (xs, Vec2.zero) ∧
      ({ v with acceleration :=
          v.acceleration.add (behaviorStep v w per xs).2 } : Vehicle).acceleration =
        v.acceleration) := by
  constructor
  · intro hp
    rw [behaviorStep_eq_of_nearest v w per xs i f d hn]
    rw [if_neg hc, if_pos hp]
  · intro hp
    have hz : behaviorStep v w per xs = (xs, Vec2.zero) := by
      rw [behaviorStep_eq_of_nearest v w per xs i f d hn]
      rw [if_neg hc, if_neg hp]
    refine ⟨hz, ?_⟩
    rw [hz]
    exact Vec2.add_zero_vec _

/-- Witness for C3: a vehicle at the origin perceives the food stimulus at
distance 1 (within perception radius 2, outside contact range) and receives
the clamped, gene-weighted steering contribution. -/
theorem behaviorStep_perception_w :
    behaviorStep vZero 1 2 [fUnit] =
      ([fUnit], Vec2.smul 1 (Vec2.limit
        (Vec2.sub (Vec2.smul vZero.max_speed (Vec2.normalize (Vec2.sub fUnit.pos vZero.pos)))
          vZero.velocity)
        vZero.max_steering_force)) := by
  have hd : dist2 vZero.pos fUnit.pos = 1 := by
    simp [dist2, Vec2.sub, Vec2.norm, Vec2.zero, vZero, fUnit]
  have hn : nearest vZero.pos [fUnit] =
      some (0, fUnit, dist2 vZero.pos fUnit.pos) := rfl
  have hc : ¬ dist2 vZero.pos fUnit.pos ≤ vZero.size / 2 + fUnit.size / 2 := by
    rw [hd]; norm_num [vZero, fUnit]
  exact (behaviorStep_perception vZero 1 2 [fUnit] 0 fUnit
    (dist2 vZero.pos fUnit.pos) hn hc).1 (by rw [hd]; norm_num)

theorem behaviorStep_nil (v : Vehicle) (w per : ℝ) :
    behaviorStep v w per [] = ([], Vec2.zero) := rfl

/-- C4 counterexample: with food gene weight 5 and `max_steering_force` 1, one
`behaviors` call adds an acceleration of magnitude 5 — strictly more than the
vehicle's `max_steering_force`, because the clamped steering vector is
multiplied by the gene weight afterwards. -/
theorem behaviors_contribution_exceeds_max_force :
    vStrong.max_steering_force <
      ((vStrong.behaviors [fUnit] []).1.acceleration).norm := by
  have hd : dist2 vStrong.pos fUnit.pos = 1 := by
    simp [dist2, Vec2.sub, Vec2.norm, Vec2.zero, vStrong, fUnit]
  have hn : nearest vStrong.pos [fUnit] =
      some (0, fUnit, dist2 vStrong.pos fUnit.pos) := rfl
  have hn5 : (⟨5, 0⟩ : Vec2).norm = 5 := by
    rw [Vec2.norm]
    dsimp only
    rw [show (5:ℝ) ^ 2 + 0 ^ 2 = 5 ^ 2 by norm_num]
    exact Real.sqrt_sq (by norm_num)
  have hstep : behaviorStep vStrong vStrong.dna.1 vStrong.perception_food [fUnit] =
      ([fUnit], ⟨5, 0⟩) := by
    rw [behaviorStep_eq_of_nearest vStrong vStrong.dna.1 vStrong.perception_food
      [fUnit] 0 fUnit (dist2 vStrong.pos fUnit.pos) hn]
    rw [if_neg (by rw [hd]; norm_num [vStrong, fUnit])]
    rw [if_pos (by rw [hd]; norm_num [vStrong])]
    have hnorm : (Vec2.sub fUnit.pos vStrong.pos).norm = 1 := by
      simp [Vec2.sub, Vec2.norm, fUnit, vStrong, Vec2.zero]
    have hnormalize : Vec2.normalize (Vec2.sub fUnit.pos vStrong.pos) = ⟨1, 0⟩ := by
      rw [Vec2.normalize, if_neg (by rw [hnorm]; norm_num)]
      rw [hnorm]
      norm_num [Vec2.smul, Vec2.sub, fUnit, vStrong, Vec2.zero]
    rw [hnormalize]
    have hdesired : Vec2.sub (Vec2.smul vStrong.max_speed ⟨1, 0⟩) vStrong.velocity =
        ⟨5, 0⟩ := by
      norm_num [Vec2.smul, Vec2.sub, vStrong, Vec2.zero]
    rw [hdesired]
    have hlimit : Vec2.limit ⟨5, 0⟩ vStrong.max_steering_force = ⟨1, 0⟩ := by
      rw [Vec2.limit, hn5, if_pos (by norm_num [vStrong])]
      norm_num [Vec2.smul, vStrong]
    rw [hlimit]
    norm_num [Vec2.smul, vStrong]
  have hb : (vStrong.behaviors [fUnit] []).1.acceleration = ⟨5, 0⟩ := by
    simp only [Vehicle.behaviors]
    rw [hstep]
    rw [behaviorStep_nil]
    simp [Vec2.add, Vec2.zero, vStrong]
  rw [hb, hn5]
  norm_num [vStrong]

/-- C4 amended: every steering contribution added within one `behaviors` has
magnitude at most |w_C| · max_steering_force, where w_C is the class's gene
weight; it can exceed max_steering_force itself when |w_C| > 1. -/
theorem behaviorStep_contribution_bound (v : Vehicle) (w per : ℝ)
    (xs : List Food) (h : 0 ≤ v.max_steering_force) :
    ((behaviorStep v w per xs).2).norm ≤ |w| * v.max_steering_force := by
  have hnn : 0 ≤ |w| * v.max_steering_force := mul_nonneg (abs_nonneg w) h
  cases hn : nearest v.pos xs with
  | none =>
    have hz : behaviorStep v w per xs = (xs, Vec2.zero) := by
      rw [behaviorStep, hn]
    rw [hz]
    simpa [Vec2.norm_zero] using hnn
  | some t =>
    obtain ⟨i, f, d⟩ := t
    rw [behaviorStep_eq_of_nearest v w per xs i f d hn]
    by_cases h1 : d ≤ v.size / 2 + f.size / 2
    · rw [if_pos h1]
      simpa [Vec2.norm_zero] using hnn
    · rw [if_neg h1]
      by_cases h2 : d ≤ per
      · rw [if_pos h2]
        dsimp only
        rw [Vec2.norm_smul]
        exact mul_le_mul_of_nonneg_left (Vec2.limit_norm_le _ _ h) (abs_nonneg w)
      · rw [if_neg h2]
        simpa [Vec2.norm_zero] using hnn

/-- Witness for the amended C4 bound at a concrete vehicle and stimulus. -/
theorem behaviorStep_contribution_bound_w :
    ((behaviorStep vZero 1 2 [fUnit]).2).norm ≤ |(1:ℝ)| * vZero.max_steering_force :=
  behaviorStep_contribution_bound vZero 1 2 [fUnit] (by simp [vZero])

theorem foldl_tickStepFn_shift (vs : List Vehicle) :
    ∀ (pre : List Vehicle) (f p : List Food),
      vs.foldl tickStepFn (pre, f, p) =
        (pre ++ (vs.foldl tickStepFn ([], f, p)).1,
          (vs.foldl tickStepFn ([], f, p)).2.1,
          (vs.foldl tickStepFn ([], f, p)).2.2) := by
  induction vs with
  | nil => intro pre f p; simp
  | cons v vs ih =>
    intro pre f p
    simp only [List.foldl_cons]
    rw [show tickStepFn (pre, f, p) v =
      (pre ++ [(stepVehicle v f p).1], (stepVehicle v f p).2.1, (stepVehicle v f p).2.2)
      from rfl]
    rw [show tickStepFn (([] : List Vehicle), f, p) v =
      ([(stepVehicle v f p).1], (stepVehicle v f p).2.1, (stepVehicle v f p).2.2)
      from rfl]
    rw [ih (pre ++ [(stepVehicle v f p).1]) (stepVehicle v f p).2.1 (stepVehicle v f p).2.2]
    rw [ih [(stepVehicle v f p).1] (stepVehicle v f p).2.1 (stepVehicle v f p).2.2]
    simp [List.append_assoc]

/-- C6: a tick processes the vehicles sequentially in collection order — the
empty world is unchanged, and on a `cons` the head vehicle runs first
(`behaviors` then `update`) and the tail is processed against the stimulus
collections the head left behind, so later vehicles see earlier consumptions;
within one vehicle, the food class is processed first and the poison class is
applied to the vehicle already carrying the food contribution. -/
theorem tick_sequential :
    (∀ f p, State.tick ⟨[], f, p⟩ = ⟨[], f, p⟩) ∧
    (∀ (v : Vehicle) vs f p,
      State.tick ⟨v :: vs, f, p⟩ =
        ⟨(stepVehicle v f p).1 ::
            (State.tick ⟨vs, (stepVehicle v f p).2.1, (stepVehicle v f p).2.2⟩).vehicles,
          (State.tick ⟨vs, (stepVehicle v f p).2.1, (stepVehicle v f p).2.2⟩).food,
          (State.tick ⟨vs, (stepVehicle v f p).2.1, (stepVehicle v f p).2.2⟩).poison⟩) ∧
    (∀ (v : Vehicle) f p,
      stepVehicle v f p =
        (Vehicle.update (v.behaviors f p).1, (v.behaviors f p).2.1, (v.behaviors f p).2.2)) ∧
    (∀ (v : Vehicle) f p,
      (v.behaviors f p).2.1 = (behaviorStep v v.dna.1 v.perception_food f).1 ∧
      (v.behaviors f p).1.acceleration =
        (v.acceleration.add (behaviorStep v v.dna.1 v.perception_food f).2).add
          (behaviorStep
            { v with acceleration :=
                v.acceleration.add (behaviorStep v v.dna.1 v.perception_food f).2 }
            v.dna.2 v.perception_poison p).2) := by
  refine ⟨fun f p => rfl, ?_, fun v f p => rfl, fun v f p => ⟨rfl, rfl⟩⟩
  intro v vs f p
  simp only [State.tick, List.foldl_cons]
  rw [show tickStepFn (([] : List Vehicle), f, p) v =
    ([(stepVehicle v f p).1], (stepVehicle v f p).2.1, (stepVehicle v f p).2.2)
    from rfl]
  rw [foldl_tickStepFn_shift vs [(stepVehicle v f p).1]
    (stepVehicle v f p).2.1 (stepVehicle v f p).2.2]
  simp [State.tick]

theorem tick_preserves_vehicle_count (s : State) :
    (State.tick s).vehicles.length = s.vehicles.length := by
  obtain ⟨vs, f, p⟩ := s
  induction vs generalizing f p with
  | nil => rfl
  | cons v vs ih =>
    simp only [State.tick, List.foldl_cons]
    rw [show tickStepFn (([] : List Vehicle), f, p) v =
      ([(stepVehicle v f p).1], (stepVehicle v f p).2.1, (stepVehicle v f p).2.2)
      from rfl]
    rw [foldl_tickStepFn_shift vs [(stepVehicle v f p).1]
      (stepVehicle v f p).2.1 (stepVehicle v f p).2.2]
    have hih := ih (stepVehicle v f p).2.1 (stepVehicle v f p).2.2
    simp only [State.tick] at hih
    simp only [List.length_cons]
    simp [List.length_append, hih]

/-- C7: the three spawning loops of `State::new` begin at 1, so exactly
`quantity − 1` vehicles, food and poison stimuli are created; in particular a
configuration requesting 2 of each creates 1 of each, diverging from the
spec's adopted count of exactly `quantity`. -/
theorem state_new_counts :
    (∀ (cfg : Config) (r : Nat → ℝ),
      (State.new cfg r).vehicles.length = cfg.vehicle.quantity - 1 ∧
      (State.new cfg r).food.length = cfg.food.quantity - 1 ∧
      (State.new cfg r).poison.length = cfg.poison.quantity - 1) ∧
    (State.new cfgTwo (fun _ => 0)).vehicles.length ≠ cfgTwo.vehicle.quantity := by
  constructor
  · intro cfg r
    refine ⟨?_, ?_, ?_⟩ <;> simp [State.new, rustRange, List.length_range']
  · intro h
    simp [State.new, rustRange, List.length_range', cfgTwo] at h

/-- C8: `map_range` is the affine map c + (d − c)·(v − a)/(b − a); it sends a
to c and b to d, and it is strictly decreasing when d < c (for a nondegenerate
increasing source range). -/
theorem map_range_affine (a b c d : ℝ) (h : a < b) :
    (∀ v, map_range v (a, b) (c, d) = c + (d - c) * (v - a) / (b - a)) ∧
    map_range a (a, b) (c, d) = c ∧
    map_range b (a, b) (c, d) = d ∧
    (d < c → ∀ x y, x < y →
      map_range y (a, b) (c, d) < map_range x (a, b) (c, d)) := by
  have hba : b - a ≠ 0 := sub_ne_zero.mpr h.ne'
  have hbpos : 0 < b - a := sub_pos.mpr h
  refine ⟨?_, ?_, ?_, ?_⟩
  · intro v
    rw [map_range]
    ring
  · rw [map_range]
    simp
  · rw [map_range]
    dsimp only
    rw [div_self hba]
    ring
  · intro hdc x y hxy
    rw [map_range, map_range]
    dsimp only
    have hlt : (x - a) / (b - a) < (y - a) / (b - a) :=
      (div_lt_div_iff_of_pos_right hbpos).mpr (by linarith)
    have hmul := mul_lt_mul_of_neg_left hlt (by linarith : d - c < 0)
    linarith

/-- Witness for C8 on the decreasing range pair (0,1) → (1,0). -/
theorem map_range_affine_w :
    map_range 0 ((0:ℝ), 1) ((1:ℝ), 0) = 1 ∧
    map_range 1 ((0:ℝ), 1) ((1:ℝ), 0) = 0 :=
  ⟨(map_range_affine 0 1 1 0 zero_lt_one).2.1,
   (map_range_affine 0 1 1 0 zero_lt_one).2.2.1⟩

/-- C9: mapping a value through (a,b) → (c,d) and back through (c,d) → (a,b)
recovers it exactly, for nondegenerate ranges (exact real arithmetic; the f32
version holds to floating-point tolerance). -/
theorem map_range_round_trip (a b c d x : ℝ) (h1 : a ≠ b) (h2 : c ≠ d) :
    map_range (map_range x (a, b) (c, d)) (c, d) (a, b) = x := by
  have hba : b - a ≠ 0 := sub_ne_zero.mpr (Ne.symm h1)
  have hdc : d - c ≠ 0 := sub_ne_zero.mpr (Ne.symm h2)
  rw [map_range, map_range]
  dsimp only
  field_simp
  ring

/-- Witness for C9 at a concrete value and ranges. -/
theorem map_range_round_trip_w :
    map_range (map_range 2 ((0:ℝ), 1) ((1:ℝ), 3)) ((1:ℝ), 3) ((0:ℝ), 1) = 2 :=
  map_range_round_trip 0 1 1 3 2 zero_ne_one (by norm_num)

/-- C10 counterexample: the invalid configuration `badCfg` (empty vehicle
size range) is not rejected at construction — `State.new` still produces a
world holding a vehicle, so no validation with a field-naming message occurs. -/
theorem state_new_accepts_invalid :
    ¬ validConfig badCfg ∧ (State.new badCfg (fun _ => 0)).vehicles.length = 1 := by
  constructor
  · intro h
    exact absurd h.1 (by norm_num [badCfg])
  · simp [State.new, rustRange, List.length_range', badCfg]

/-- C10 amended: `State::new` performs no configuration validation — even on
an invalid configuration it totally constructs a `State` (spawning
`quantity − 1` entities per class), and once constructed the tick operation is
total, preserving the vehicle count. -/
theorem state_new_no_validation (cfg : Config) (r : Nat → ℝ)
    (h : ¬ validConfig cfg) :
    (State.new cfg r).vehicles.length = cfg.vehicle.quantity - 1 ∧
    (State.new cfg r).food.length = cfg.food.quantity - 1 ∧
    (State.new cfg r).poison.length = cfg.poison.quantity - 1 ∧
    ∀ s : State, (State.tick s).vehicles.length = s.vehicles.length := by
  refine ⟨?_, ?_, ?_, tick_preserves_vehicle_count⟩ <;>
    simp [State.new, rustRange, List.length_range']

/-- Witness for the amended C10 at the invalid configuration `badCfg`. -/
theorem state_new_no_validation_w :
    (State.new badCfg (fun _ => 0)).vehicles.length = badCfg.vehicle.quantity - 1 :=
  (state_new_no_validation badCfg (fun _ => 0) (by norm_num [validConfig, badCfg])).1

end Evolution
